import Mathlib

/-!
# Verification of `dictionary_scrape.py`

A shallow embedding of the data model and the two pipeline functions of
`src/dictionary_scrape.py` (`fetch_saved_words`, `fetch_dictionary_data`),
together with the top-level script control flow, and proofs of the frozen
claims about them.

JSON values (the results of Python's `response.json()`) are modelled by the
inductive type `Json`; Python runtime exceptions (TypeError, KeyError,
IndexError, AttributeError) that the script can raise while walking a parsed
response are modelled by `PyErr`, and fallible code returns `Except PyErr _`.
-/

/-- A parsed JSON value, as produced by Python's `json` module: `None`,
booleans, numbers, strings, lists and dicts.  Numbers are modelled as `Int`
(the script only ever uses them whole, and their truthiness is `≠ 0`).
Dicts are association lists of string keys; a dict produced by `json.loads`
has pairwise distinct keys, and `List.lookup` (first binding) is its lookup. -/
inductive Json where
  | null : Json
  | bool : Bool → Json
  | num : Int → Json
  | str : String → Json
  | arr : List Json → Json
  | obj : List (String × Json) → Json

/-- The Python runtime exceptions that the response-walking code can raise. -/
inductive PyErr where
  | typeError : PyErr
  | keyError : PyErr
  | indexError : PyErr
  | attributeError : PyErr
deriving DecidableEq, Repr

/-- Python truthiness (`bool(x)`) of a JSON value: `None` is falsy, numbers
are truthy iff nonzero, strings/lists/dicts are truthy iff non-empty. -/
def Json.truthy : Json → Bool
  | .null => false
  | .bool b => b
  | .num n => n ≠ 0
  | .str s => s ≠ ""
  | .arr xs => !xs.isEmpty
  | .obj fs => !fs.isEmpty

/-- Python iteration `for x in j`: lists yield their elements, strings yield
their characters (as one-character strings), dicts yield their keys; other
values raise `TypeError: ... is not iterable`. -/
def Json.iter : Json → Except PyErr (List Json)
  | .arr xs => .ok xs
  | .str s => .ok (s.data.map fun c => .str (String.mk [c]))
  | .obj fs => .ok (fs.map fun kv => .str kv.1)
  | _ => .error .typeError

/-- Python `len(j)`: defined for lists, strings and dicts, otherwise
`TypeError`. -/
def Json.len : Json → Except PyErr Nat
  | .arr xs => .ok xs.length
  | .str s => .ok s.data.length
  | .obj fs => .ok fs.length
  | _ => .error .typeError

/-- Python subscription `j[i]` with a non-negative int literal `i`:
lists and strings index (raising `IndexError` when out of range), dicts
look the integer up as a key — the keys of a parsed JSON dict are strings,
so this always raises `KeyError` — and other values raise `TypeError`. -/
def Json.sub (j : Json) (i : Nat) : Except PyErr Json :=
  match j with
  | .arr xs => match xs.get? i with
      | some x => .ok x
      | none => .error .indexError
  | .str s => match s.data.get? i with
      | some c => .ok (.str (String.mk [c]))
      | none => .error .indexError
  | .obj _ => .error .keyError
  | _ => .error .typeError

/-- Python `j.get(k, d)`: a dict method; on any non-dict value the attribute
access raises `AttributeError`. -/
def Json.getD (j : Json) (k : String) (d : Json) : Except PyErr Json :=
  match j with
  | .obj fs => .ok ((fs.lookup k).getD d)
  | _ => .error .attributeError

/-- Python `j == s` for a string literal `s`: values of other types compare
unequal, a string compares by contents. -/
def Json.eqStr (j : Json) (s : String) : Bool :=
  match j with
  | .str t => t = s
  | _ => false

/-- Python `j.replace(...)`: a string method; on any non-string value the
attribute access raises `AttributeError`. -/
def Json.asStr : Json → Except PyErr String
  | .str s => .ok s
  | _ => .error .attributeError

/-! ## Tag stripping (line 209: `example_text.replace("{it}", "").replace("{/it}", "")`) -/

/-- Python `s.replace("{it}", "")` on the character list of `s`: scan left to
right, deleting each (non-overlapping, leftmost) occurrence of the four
characters `{it}`. -/
def stripIt : List Char → List Char
  | '{' :: 'i' :: 't' :: '}' :: rest => stripIt rest
  | c :: cs => c :: stripIt cs
  | [] => []

/-- Python `s.replace("{/it}", "")` on the character list of `s`. -/
def stripEndIt : List Char → List Char
  | '{' :: '/' :: 'i' :: 't' :: '}' :: rest => stripEndIt rest
  | c :: cs => c :: stripEndIt cs
  | [] => []

/-- Line 209: `example_text.replace("{it}", "").replace("{/it}", "")`. -/
def strip_tags (s : String) : String :=
  String.mk (stripEndIt (stripIt s.data))

/-- Python `"{it}" in s` (substring occurrence test). -/
def hasIt : List Char → Bool
  | '{' :: 'i' :: 't' :: '}' :: _ => true
  | _ :: cs => hasIt cs
  | [] => false

/-- Python `"{/it}" in s` (substring occurrence test). -/
def hasEndIt : List Char → Bool
  | '{' :: '/' :: 'i' :: 't' :: '}' :: _ => true
  | _ :: cs => hasEndIt cs
  | [] => false

/-! ## Part 2: `fetch_saved_words` (lines 100-152) -/

/-- Lines 145-147, for one item of a page: `word = item.get("word", "")`,
kept when truthy.  A non-dict item raises `AttributeError` at `.get`. -/
def word_of_item (item : Json) : Except PyErr (Option Json) :=
  match item with
  | .obj fs =>
    let w := (fs.lookup "word").getD (.str "")
    .ok (if w.truthy then some w else none)
  | _ => .error .attributeError

/-- Lines 144-147: `for item in items`, appending each truthy word to the
accumulated `all_words`. -/
def processItems (acc : List Json) : List Json → Except PyErr (List Json)
  | [] => .ok acc
  | item :: rest =>
    match word_of_item item with
    | .error e => .error e
    | .ok (some w) => processItems (acc ++ [w]) rest
    | .ok none => processItems acc rest

/-- Lines 137-149: the page loop over the given list of page numbers.  Returns
the pages the loop actually fetched, in order, paired with the outcome: the
accumulated word list, or the uncaught exception that aborted the script.
The body fetches `pages p`, breaks when the items list is empty, and otherwise
runs the item loop; `time.sleep(0.5)` is I/O with no data effect. -/
def fswLoop (pages : Nat → List Json) : List Nat → List Json → List Nat × Except PyErr (List Json)
  | [], acc => ([], .ok acc)
  | p :: ps, acc =>
    let items := pages p
    if items.isEmpty then ([p], .ok acc)
    else
      match processItems acc items with
      | .error e => ([p], .error e)
      | .ok acc' =>
        let r := fswLoop pages ps acc'
        (p :: r.1, r.2)

/-- Lines 129-152: `fetch_saved_words`, for responses of the shape the claims
fix: `totalPages` stands for the page count
`int(data_page1.get("data", {}).get("data", {}).get("totalPages", 0))` parsed
from the page-1 probe of lines 132-134 (`0` covers the absent and non-positive
cases, for which `range(1, total_pages + 1)` is just as empty), and `pages p`
stands for the items list `page_data.get("data", {}).get("data", {}).get("items", [])`
of the page-`p` response (line 141).  The loop of line 137 runs `page` over
`range(1, total_pages + 1)`. -/
def fetch_saved_words (totalPages : Nat) (pages : Nat → List Json) :
    Except PyErr (List Json) :=
  (fswLoop pages (List.range' 1 totalPages) []).2

/-- The pages whose items contribute words: the longest prefix of
`1..totalPages` of pages with a non-empty items list (the loop of lines
142-143 breaks at the first empty one). -/
def visitedPages (totalPages : Nat) (pages : Nat → List Json) : List Nat :=
  (List.range' 1 totalPages).takeWhile fun p => !(pages p).isEmpty

/-- The word one item contributes (lines 145-147), when the item is a dict:
its `"word"` field when truthy, nothing otherwise. -/
def itemWord (item : Json) : Option Json :=
  match item with
  | .obj fs =>
    let w := (fs.lookup "word").getD (.str "")
    if w.truthy then some w else none
  | _ => none

/-- The words lines 144-147 extract from one page's items: the `"word"` field
of each dict item, kept when truthy. -/
def pageWords (items : List Json) : List Json :=
  items.filterMap itemWord

/-- The quantity named by the pagination claim: the sum of the raw item counts
of the pages from page 1 up to but excluding the first page with no items. -/
def sumItemCounts (totalPages : Nat) (pages : Nat → List Json) : Nat :=
  ((visitedPages totalPages pages).map fun p => (pages p).length).sum

/-- The corrected quantity: the sum, over the same pages, of the number of
items that actually contribute a word (dict items with a truthy `"word"`). -/
def sumWordCounts (totalPages : Nat) (pages : Nat → List Json) : Nat :=
  ((visitedPages totalPages pages).map fun p => (pageWords (pages p)).length).sum

/-! ## Part 3: `fetch_dictionary_data` (lines 159-216) -/

/-- The `{word, description, examples}` dict of lines 212-216.  `word` and
`description` hold whatever Python values the script put there. -/
structure DictEntry where
  word : Json
  description : Json
  examples : List String

/-- Lines 210-211: `if example_text and example_text not in examples:
examples.append(example_text)`. -/
def insertExample (examples : List String) (example_text : String) : List String :=
  if example_text ≠ "" ∧ example_text ∉ examples then examples ++ [example_text]
  else examples

/-- Lines 206-211, the innermost loop `for ex in dt_item[1]`: read
`ex.get("t", "")`, strip the two tags (line 209 — the `.replace` attribute
access requires a string), and update the accumulator with `upd` (the script's
update is `insertExample`; the parameter lets the specification-side replay
`harvestTexts` share the walk). -/
def exLoop (upd : List String → String → List String) (exs0 : List String)
    (exItems : List Json) : Except PyErr (List String) :=
  exItems.foldlM (fun exs ex => do
    let t ← ex.getD "t" (.str "")
    let s ← t.asStr
    pure (upd exs (strip_tags s))) exs0

/-- Lines 203-211: `for dt_item in dt_items`, with the guard
`if dt_item and dt_item[0] == "vis"` of line 204 (short-circuit: the subscript
is only evaluated on a truthy `dt_item`), then iterating over `dt_item[1]`. -/
def dtLoop (upd : List String → String → List String) (exs0 : List String)
    (dt_items : List Json) : Except PyErr (List String) :=
  dt_items.foldlM (fun exs dt_item => do
    let cond ←
      if dt_item.truthy then do
        let h ← dt_item.sub 0
        pure (h.eqStr "vis")
      else pure false
    if cond then do
      let exList ← dt_item.sub 1
      let exItems ← exList.iter
      exLoop upd exs exItems
    else pure exs) exs0

/-- Lines 195-211: `for sense_entry in sense_group`, skipping entries of
length below 2 (line 196) and non-dict `sense_info` (lines 198-201). -/
def senseLoop (upd : List String → String → List String) (exs0 : List String)
    (sense_group_items : List Json) : Except PyErr (List String) :=
  sense_group_items.foldlM (fun exs sense_entry => do
    let n ← sense_entry.len
    if n < 2 then pure exs
    else do
      let sense_info ← sense_entry.sub 1
      match sense_info with
      | .obj sfs => do
        let dt_items ← ((sfs.lookup "dt").getD (.arr [])).iter
        dtLoop upd exs dt_items
      | _ => pure exs) exs0

/-- Lines 193-211: `for sense_group in sseq`. -/
def sseqLoop (upd : List String → String → List String) (exs0 : List String)
    (sseq_items : List Json) : Except PyErr (List String) :=
  sseq_items.foldlM (fun exs sense_group => do
    let sgItems ← sense_group.iter
    senseLoop upd exs sgItems) exs0

/-- Lines 192-211: `for d in first_entry.get("def", [])`, reading
`d.get("sseq", [])` (line 193). -/
def defLoop (upd : List String → String → List String) (exs0 : List String)
    (def_items : List Json) : Except PyErr (List String) :=
  def_items.foldlM (fun exs d => do
    let sseqJ ← d.getD "sseq" (.arr [])
    let sseq_items ← sseqJ.iter
    sseqLoop upd exs sseq_items) exs0

/-- Lines 191-211: the whole example walk over the fields of `first_entry`,
starting from `examples = []`. -/
def exampleWalk (upd : List String → String → List String)
    (fs : List (String × Json)) : Except PyErr (List String) := do
  let def_items ← ((fs.lookup "def").getD (.arr [])).iter
  defLoop upd [] def_items

/-- Lines 159-216: `fetch_dictionary_data`.  `word` is the value looked up
(line 219 passes the elements of `all_words`); `entries` is the parsed
response `resp.json()` of line 172 (a JSON decode error is caught at lines
173-175 and yields `None` before `entries` exists, so only parsed values
reach this code).

* lines 177-179: a falsy or non-list response returns `None`;
* lines 181-184: a first entry that is not a dict, or lacks `"meta"`, returns `None`;
* lines 187-188: `description = shortdef_list[0] if shortdef_list else ""`;
* lines 191-211: the example walk with the append guard `insertExample`;
* lines 212-216: the result dict. -/
def fetch_dictionary_data (word : Json) (entries : Json) :
    Except PyErr (Option DictEntry) :=
  match entries with
  | .arr (first_entry :: _) =>
    match first_entry with
    | .obj fs =>
      if (fs.lookup "meta").isSome then do
        let shortdef_list := (fs.lookup "shortdef").getD (.arr [])
        let description ← if shortdef_list.truthy then shortdef_list.sub 0
                          else pure (.str "")
        let examples ← exampleWalk insertExample fs
        pure (some ⟨word, description, examples⟩)
      else .ok none
    | _ => .ok none
  | _ => .ok none

/-- Specification-side replay of the example walk of lines 191-211, following
the spec's words for the deduplication claim: it records *every* stripped
example text in traversal order, without the non-empty/dedup append guard of
lines 210-211. -/
def harvestTexts (fs : List (String × Json)) : Except PyErr (List String) :=
  exampleWalk (fun exs t => exs ++ [t]) fs

/-- First-occurrence deduplication (dropping empty strings): fold the
harvested texts through the append guard of lines 210-211. -/
def dedupFirst (ts : List String) : List String :=
  ts.foldl insertExample []

/-! ## Parts 3-4: the enrichment loop (lines 218-224) and the final report
(lines 229-245), plus the module-level control flow. -/

/-- An external action of the script, for stating ordering claims. -/
inductive Event where
  | login : Event
  | pageFetch : Nat → Event
  | wordLookup : Json → Event
  | fileWrite : Event

/-- Lines 218-224: the per-word loop.  `lookup w` is the parsed response of
the per-word API call for `w` (lines 169-172).  Returns the lookup actions
performed, in order, paired with the outcome: the accumulated
`formatted_words`, or the uncaught exception that aborted the script;
`time.sleep(0.3)` is I/O with no data effect. -/
def enrichLoop (lookup : Json → Json) :
    List Json → List DictEntry → List Event × Except PyErr (List DictEntry)
  | [], acc => ([], .ok acc)
  | w :: ws, acc =>
    match fetch_dictionary_data w (lookup w) with
    | .error e => ([.wordLookup w], .error e)
    | .ok none =>
      let r := enrichLoop lookup ws acc
      (.wordLookup w :: r.1, r.2)
    | .ok (some entry) =>
      let r := enrichLoop lookup ws (acc ++ [entry])
      (.wordLookup w :: r.1, r.2)

/-- Lines 218-224: `formatted_words`, the entries of the words whose lookup
returned a non-`None` result, in word order. -/
def formatted_words (lookup : Json → Json) (all_words : List Json) :
    Except PyErr (List DictEntry) :=
  (enrichLoop lookup all_words []).2

/-- Lines 229-232: the final report `{"total_words": ..., "data": ...}`. -/
structure Report where
  total_words : Nat
  data : List DictEntry

/-- Lines 229-232:
`final_output = {"total_words": len(formatted_words), "data": formatted_words}`. -/
def final_output (formatted : List DictEntry) : Report :=
  ⟨formatted.length, formatted⟩

/-- The three environment variables of lines 46-48 (`None` when unset). -/
structure Env where
  mw_email : Option String
  mw_password : Option String
  dict_api_key : Option String

/-- Python truthiness of `os.environ.get(...)`: set and non-empty. -/
def envSet : Option String → Bool
  | none => false
  | some s => s ≠ ""

/-- Lines 49-51: the check `if not MW_EMAIL or not MW_PASSWORD or not
DICT_API_KEY: exit(1)`, as the condition under which the script proceeds. -/
def creds_ok (env : Env) : Bool :=
  envSet env.mw_email && envSet env.mw_password && envSet env.dict_api_key

/-- The outcome of a run of the script, with the external actions performed. -/
inductive ScriptOutcome where
  | exit : Nat → List Event → ScriptOutcome
  | crash : PyErr → List Event → ScriptOutcome
  | finished : Report → List Event → ScriptOutcome

/-- The trace of the fetch stage: the login of line 95, the page-1 probe of
line 132, then the pages the loop of line 137 fetched. -/
def fetchTrace (fetchedPs : List Nat) : List Event :=
  Event.login :: (1 :: fetchedPs).map Event.pageFetch

/-- The module-level control flow (lines 41-246): the credentials check of
lines 46-51 runs first and calls `exit(1)` when a variable is unset or empty;
only then does the script log in (line 95), probe page 1 for the page count
(line 132) and run the page loop (lines 137-149), run the per-word loop
(lines 218-224), and write the output file (lines 243-245).  `totalPages`,
`pages` and `lookup` are the response oracles, as in `fetch_saved_words` and
`fetch_dictionary_data`. -/
def run_script (env : Env) (totalPages : Nat) (pages : Nat → List Json)
    (lookup : Json → Json) : ScriptOutcome :=
  if !creds_ok env then .exit 1 []
  else
    match fswLoop pages (List.range' 1 totalPages) [] with
    | (fps, .error e) => .crash e (fetchTrace fps)
    | (fps, .ok all_words) =>
      match enrichLoop lookup all_words [] with
      | (levs, .error e) => .crash e (fetchTrace fps ++ levs)
      | (levs, .ok fw) =>
        .finished (final_output fw) (fetchTrace fps ++ levs ++ [.fileWrite])

/-! ## Helper lemmas -/

theorem word_of_item_ok {item : Json} {ow : Option Json}
    (h : word_of_item item = .ok ow) : itemWord item = ow := by
  cases item <;> simp_all [word_of_item, itemWord]

theorem itemWord_truthy {item w : Json} (h : itemWord item = some w) :
    w.truthy = true := by
  cases item <;> simp [itemWord] at h
  obtain ⟨ht, hw⟩ := h
  subst hw
  exact ht

theorem processItems_ok :
    ∀ (items acc ws : List Json), processItems acc items = .ok ws →
      ws = acc ++ pageWords items := by
  intro items
  induction items with
  | nil =>
    intro acc ws h
    simp [processItems] at h
    simp [pageWords, h]
  | cons item rest ih =>
    intro acc ws h
    unfold processItems at h
    cases hwi : word_of_item item with
    | error e => rw [hwi] at h; cases h
    | ok ow =>
      rw [hwi] at h
      have hiw := word_of_item_ok hwi
      cases ow with
      | some w =>
        have := ih _ _ h
        simp [pageWords, List.filterMap_cons, hiw, this]
      | none =>
        have := ih _ _ h
        simp [pageWords, List.filterMap_cons, hiw, this]

theorem fswLoop_ok (pages : Nat → List Json) :
    ∀ (ps : List Nat) (acc ws : List Json),
      (fswLoop pages ps acc).2 = .ok ws →
      ws = acc ++ (ps.takeWhile fun p => !(pages p).isEmpty).flatMap
        fun p => pageWords (pages p) := by
  intro ps
  induction ps with
  | nil =>
    intro acc ws h
    simp [fswLoop] at h
    simp [h]
  | cons p ps ih =>
    intro acc ws h
    unfold fswLoop at h
    by_cases he : (pages p).isEmpty
    · simp [he] at h
      simp [List.takeWhile_cons, he, h]
    · simp [he] at h
      cases hpi : processItems acc (pages p) with
      | error e => rw [hpi] at h; cases h
      | ok acc' =>
        rw [hpi] at h
        have h1 := ih _ _ h
        have h2 := processItems_ok _ _ _ hpi
        subst h2
        simp [List.takeWhile_cons, he, h1]

theorem takeWhile_range' (q : Nat → Bool) :
    ∀ (n s : Nat), (List.range' s n).takeWhile q =
      List.range' s ((List.range' s n).takeWhile q).length := by
  intro n
  induction n with
  | zero => intro s; simp
  | succ n ih =>
    intro s
    rw [List.range'_succ]
    by_cases hq : q s
    · rw [List.takeWhile_cons_of_pos hq]
      simp only [List.length_cons, List.range'_succ, List.cons.injEq, true_and]
      exact ih (s + 1)
    · rw [List.takeWhile_cons_of_neg (by simp [hq])]
      simp

/-! ## Claims about `fetch_saved_words` -/

/-- Claim C2, counterexample: A run with one page whose single item is a dict
without a `"word"` field: `fetch_saved_words` returns no words, while the sum
of the item counts of the pages before the first empty page is `1` — so the
word count does not, in general, equal the sum of the item counts. -/
theorem fetch_saved_words_itemcount_cex :
    fetch_saved_words 1 (fun _ => [Json.obj []]) = .ok [] ∧
    sumItemCounts 1 (fun _ => [Json.obj []]) = 1 := by
  constructor <;> rfl

/-- Claim C2, amended: For every sequence of paginated responses, the number of
words returned by `fetch_saved_words` equals the sum, over the pages from page
1 up to but excluding the first page that yields no items (or through the
reported last page, if no page is empty), of the number of items of the page
that carry a truthy `"word"` field. -/
theorem fetch_saved_words_word_count (totalPages : Nat)
    (pages : Nat → List Json) (ws : List Json)
    (h : fetch_saved_words totalPages pages = .ok ws) :
    ws.length = sumWordCounts totalPages pages := by
  have h1 := fswLoop_ok pages (List.range' 1 totalPages) [] ws h
  subst h1
  simp [sumWordCounts, visitedPages, List.length_flatMap, Function.comp_def]

/-- Pages for the pagination witnesses: page 1 has one item with a word and
one without, page 2 is empty despite the reported count of 2. -/
def witPages : Nat → List Json := fun p =>
  if p = 1 then [Json.obj [("word", Json.str "cat")], Json.obj []] else []

theorem fetch_saved_words_word_count_witness :
    ([Json.str "cat"] : List Json).length = sumWordCounts 2 witPages :=
  fetch_saved_words_word_count 2 witPages [Json.str "cat"] rfl

/-- Claim C8: Whenever `fetch_saved_words` returns a word list, the visited
pages are exactly `1, 2, ..., k` for some `k ≤ totalPages` (the loop walks the
pages strictly sequentially in increasing order from page 1), and the word
list is the concatenation, page by page in that order, of each page's words in
item order. -/
theorem fetch_saved_words_page_order (totalPages : Nat)
    (pages : Nat → List Json) (ws : List Json)
    (h : fetch_saved_words totalPages pages = .ok ws) :
    ws = (visitedPages totalPages pages).flatMap
        (fun p => pageWords (pages p)) ∧
    ∃ k, k ≤ totalPages ∧ visitedPages totalPages pages = List.range' 1 k := by
  constructor
  · simpa [visitedPages] using fswLoop_ok pages (List.range' 1 totalPages) [] ws h
  · refine ⟨(visitedPages totalPages pages).length, ?_, ?_⟩
    · calc (visitedPages totalPages pages).length
          ≤ (List.range' 1 totalPages).length :=
            (List.takeWhile_sublist _).length_le
        _ = totalPages := List.length_range' ..
    · exact takeWhile_range' _ totalPages 1

/-- Pages for the order witness: one word on page 1, one on page 2. -/
def witPages8 : Nat → List Json := fun p =>
  if p = 1 then [Json.obj [("word", Json.str "alpha")]]
  else if p = 2 then [Json.obj [("word", Json.str "beta")]] else []

theorem fetch_saved_words_page_order_witness :
    ([Json.str "alpha", Json.str "beta"] : List Json) =
      (visitedPages 2 witPages8).flatMap fun p => pageWords (witPages8 p) :=
  (fetch_saved_words_page_order 2 witPages8 [Json.str "alpha", Json.str "beta"]
    rfl).1

/-- Claim C10: Every string among the words returned by `fetch_saved_words` is
non-empty: an item whose `"word"` field is missing or empty yields a falsy
word and is dropped by the guard of lines 146-147. -/
theorem fetch_saved_words_strings_nonempty (totalPages : Nat)
    (pages : Nat → List Json) (ws : List Json)
    (h : fetch_saved_words totalPages pages = .ok ws) :
    ∀ s : String, Json.str s ∈ ws → s ≠ "" := by
  intro s hs
  have h1 := fswLoop_ok pages (List.range' 1 totalPages) [] ws h
  subst h1
  simp only [List.nil_append, List.mem_flatMap, pageWords, List.mem_filterMap] at hs
  obtain ⟨p, _, item, _, hw⟩ := hs
  have := itemWord_truthy hw
  simpa [Json.truthy] using this

/-- Pages for the non-empty-strings witness: items with a missing word, an
empty word and a real word on the same page. -/
def witPages10 : Nat → List Json := fun p =>
  if p = 1 then
    [Json.obj [], Json.obj [("word", Json.str "")],
     Json.obj [("word", Json.str "cat")]]
  else []

theorem fetch_saved_words_strings_nonempty_witness : "cat" ≠ "" :=
  fetch_saved_words_strings_nonempty 1 witPages10 [Json.str "cat"] rfl "cat"
    (by simp)

/-! ## Claims about the script control flow and the final report -/

/-- Claim C7: When any of `MW_EMAIL`, `MW_PASSWORD` or `DICT_API_KEY` is unset
or empty, the script exits with status 1 having performed no external action:
no login attempt, no page fetch, no word lookup, no file write. -/
theorem missing_creds_exits_early (env : Env) (totalPages : Nat)
    (pages : Nat → List Json) (lookup : Json → Json)
    (h : envSet env.mw_email = false ∨ envSet env.mw_password = false ∨
      envSet env.dict_api_key = false) :
    run_script env totalPages pages lookup = .exit 1 [] := by
  have hc : creds_ok env = false := by
    rcases h with h | h | h <;> simp [creds_ok, h]
  simp [run_script, hc]

theorem missing_creds_exits_early_witness :
    run_script ⟨some "user@example.com", some "", some "key"⟩ 3
      (fun _ => [Json.obj [("word", Json.str "cat")]]) (fun _ => Json.null) =
      .exit 1 [] :=
  missing_creds_exits_early _ 3 _ _ (Or.inr (Or.inl rfl))

/-- Claim C4: Every report the script finishes with (and writes to the output
file) has its `total_words` field equal to the length of its `data` list. -/
theorem final_report_total_words (env : Env) (totalPages : Nat)
    (pages : Nat → List Json) (lookup : Json → Json) (r : Report)
    (evs : List Event)
    (h : run_script env totalPages pages lookup = .finished r evs) :
    r.total_words = r.data.length := by
  unfold run_script at h
  split at h
  · cases h
  · split at h
    · cases h
    · split at h
      · cases h
      · cases h
        simp [final_output]


theorem final_report_total_words_witness :
    run_script ⟨some "e", some "p", some "k"⟩ 0 (fun _ => []) (fun _ => Json.null) =
      .finished ⟨0, []⟩ [.login, .pageFetch 1, .fileWrite] ∧
    (0 : Nat) = ([] : List DictEntry).length :=
  ⟨rfl, final_report_total_words ⟨some "e", some "p", some "k"⟩ 0
    (fun _ => []) (fun _ => Json.null) ⟨0, []⟩
    [.login, .pageFetch 1, .fileWrite] rfl⟩

theorem enrichLoop_ok (lookup : Json → Json) (res : Json → Option DictEntry) :
    ∀ (ws : List Json) (acc : List DictEntry),
      (∀ w ∈ ws, fetch_dictionary_data w (lookup w) = .ok (res w)) →
      (enrichLoop lookup ws acc).2 = .ok (acc ++ ws.filterMap res) := by
  intro ws
  induction ws with
  | nil => intro acc h; simp [enrichLoop]
  | cons w ws ih =>
    intro acc h
    have hw := h w (by simp)
    have hrest : ∀ w' ∈ ws, fetch_dictionary_data w' (lookup w') = .ok (res w') :=
      fun w' hw' => h w' (by simp [hw'])
    unfold enrichLoop
    rw [hw]
    cases hres : res w with
    | none =>
      simp only [List.filterMap_cons, hres]
      exact ih acc hrest
    | some e =>
      simp only [List.filterMap_cons, hres]
      rw [ih (acc ++ [e]) hrest]
      simp

/-- Claim C9: When every per-word lookup runs without an exception, the
`formatted_words` list contains exactly the entries of the words whose lookup
returned a non-`None` result, in the order of the saved-word list, and hence
the report's `total_words` is at most the number of saved words. -/
theorem formatted_words_keep_order (lookup : Json → Json)
    (res : Json → Option DictEntry) (all_words : List Json)
    (h : ∀ w ∈ all_words, fetch_dictionary_data w (lookup w) = .ok (res w)) :
    formatted_words lookup all_words = .ok (all_words.filterMap res) ∧
    (final_output (all_words.filterMap res)).total_words ≤ all_words.length := by
  constructor
  · simpa [formatted_words] using enrichLoop_ok lookup res all_words [] h
  · simpa [final_output] using List.length_filterMap_le res all_words

/-- Lookup oracle for the order witness: the word `"a"` resolves to a minimal
valid entry, everything else to a `None`-producing null response. -/
def witLookup : Json → Json := fun w =>
  if w.eqStr "a" then
    Json.arr [Json.obj [("meta", Json.null), ("shortdef", Json.arr [Json.str "x"])]]
  else Json.null

/-- Result table matching `witLookup`. -/
def witRes : Json → Option DictEntry := fun w =>
  if w.eqStr "a" then some ⟨w, Json.str "x", []⟩ else none

theorem formatted_words_keep_order_witness :
    formatted_words witLookup [Json.str "a", Json.str "b"] =
      .ok ([Json.str "a", Json.str "b"].filterMap witRes) ∧
    (final_output ([Json.str "a", Json.str "b"].filterMap witRes)).total_words ≤
      ([Json.str "a", Json.str "b"] : List Json).length :=
  formatted_words_keep_order witLookup witRes [Json.str "a", Json.str "b"]
    (by
      intro w hw
      simp only [List.mem_cons, List.not_mem_nil, or_false] at hw
      rcases hw with rfl | rfl <;> rfl)

/-! ## Claims about `fetch_dictionary_data` -/

/-- Claim C1, code bug: The claim (and the spec) say a malformed per-word
response is never fatal, but the code can raise: on the parsed response
`[{"meta": null, "shortdef": 5}]` the guards of lines 177-184 pass, and line
188 evaluates `shortdef_list[0]` with `shortdef_list = 5`, raising
`TypeError: 'int' object is not subscriptable` — the script aborts instead of
skipping the word. -/
theorem fetch_dictionary_data_raises_on_num_shortdef :
    fetch_dictionary_data (Json.str "anyword")
      (Json.arr [Json.obj [("meta", Json.null), ("shortdef", Json.num 5)]]) =
      .error .typeError := rfl

/-- Claim C6: For a successful lookup (non-empty list response whose first
element is a dict with `"meta"`), when the first entry's `"shortdef"` field is
a list (or absent, read as `[]`), the returned description is that list's
first element, and the empty string when the list is empty or absent. -/
theorem fetch_description_first_shortdef (word : Json)
    (fs : List (String × Json)) (rest : List Json) (l : List Json)
    (e : DictEntry)
    (hsd : (fs.lookup "shortdef").getD (Json.arr []) = Json.arr l)
    (hf : fetch_dictionary_data word (Json.arr (Json.obj fs :: rest)) =
      .ok (some e)) :
    e.description = l.headD (Json.str "") := by
  simp only [fetch_dictionary_data] at hf
  by_cases hm : (fs.lookup "meta").isSome
  · rw [if_pos hm, hsd] at hf
    cases l with
    | nil =>
      simp only [Json.truthy, List.isEmpty_nil, Bool.not_true, if_neg,
        Bool.false_eq_true, not_false_eq_true, pure, Except.pure] at hf
      cases hwalk : exampleWalk insertExample fs with
      | error er => rw [hwalk] at hf; cases hf
      | ok exs =>
        rw [hwalk] at hf
        cases hf
        rfl
    | cons x xs =>
      simp only [Json.truthy, List.isEmpty_cons, Bool.not_false, if_pos,
        Json.sub, List.get?] at hf
      cases hwalk : exampleWalk insertExample fs with
      | error er => rw [hwalk] at hf; cases hf
      | ok exs =>
        rw [hwalk] at hf
        cases hf
        rfl
  · rw [if_neg hm] at hf
    cases hf

theorem fetch_description_first_shortdef_witness :
    (DictEntry.mk (Json.str "w") (Json.str "a def") []).description =
      ([Json.str "a def"] : List Json).headD (Json.str "") :=
  fetch_description_first_shortdef (Json.str "w")
    [("meta", Json.null), ("shortdef", Json.arr [Json.str "a def"])] []
    [Json.str "a def"] ⟨Json.str "w", Json.str "a def", []⟩ rfl rfl

/-! ## The deduplication simulation (for the claim about examples) -/

theorem except_bind_ok {ε α β : Type} (a : α) (f : α → Except ε β) :
    (Except.ok a : Except ε α) >>= f = f a := rfl

theorem except_bind_error {ε α β : Type} (e : ε) (f : α → Except ε β) :
    (Except.error e : Except ε α) >>= f = .error e := rfl

theorem except_map_ok {ε α β : Type} (g : α → β) (a : α) :
    (Except.ok a : Except ε α).map g = .ok (g a) := rfl

theorem except_map_error {ε α β : Type} (g : α → β) (e : ε) :
    (Except.error e : Except ε α).map g = .error e := rfl

theorem except_pure_bind {ε α β : Type} (a : α) (f : α → Except ε β) :
    (pure a : Except ε α) >>= f = f a := rfl

theorem dedupFirst_append_one (b : List String) (t : String) :
    dedupFirst (b ++ [t]) = insertExample (dedupFirst b) t := by
  simp [dedupFirst, List.foldl_append]

/-- Two runs of the same effectful fold, one accumulating raw texts, the
other through the dedup guard, stay related by `D`. -/
theorem foldlM_sim {α : Type}
    (f₁ f₂ : List String → α → Except PyErr (List String))
    (D : List String → List String)
    (hstep : ∀ b a, f₁ (D b) a = (f₂ b a).map D) :
    ∀ (l : List α) (b : List String),
      l.foldlM f₁ (D b) = (l.foldlM f₂ b).map D := by
  intro l
  induction l with
  | nil => intro b; rfl
  | cons a l ih =>
    intro b
    rw [List.foldlM_cons, List.foldlM_cons, hstep]
    cases h : f₂ b a with
    | error e => simp only [except_bind_error, except_map_error]
    | ok b' =>
      simp only [except_map_ok, except_bind_ok]
      exact ih b'

theorem exLoop_sim (exItems : List Json) (b : List String) :
    exLoop insertExample (dedupFirst b) exItems =
      (exLoop (fun exs t => exs ++ [t]) b exItems).map dedupFirst := by
  unfold exLoop
  refine foldlM_sim _ _ dedupFirst ?_ exItems b
  intro b' ex
  cases hget : ex.getD "t" (Json.str "") with
  | error e => simp [hget, except_bind_error, except_map_error]
  | ok t =>
    cases hstr : t.asStr with
    | error e => simp [hget, hstr, except_bind_ok, except_bind_error,
        except_map_error]
    | ok s => simp [hget, hstr, except_bind_ok, except_map_ok,
        dedupFirst_append_one, pure, Except.pure]

theorem dtLoop_sim (dt_items : List Json) (b : List String) :
    dtLoop insertExample (dedupFirst b) dt_items =
      (dtLoop (fun exs t => exs ++ [t]) b dt_items).map dedupFirst := by
  unfold dtLoop
  refine foldlM_sim _ _ dedupFirst ?_ dt_items b
  intro b' dt_item
  by_cases ht : dt_item.truthy
  · simp only [ht, if_true]
    cases hsub : dt_item.sub 0 with
    | error e => simp [hsub, except_bind_error, except_map_error]
    | ok hd =>
      simp only [hsub, except_bind_ok, pure, Except.pure]
      by_cases hv : hd.eqStr "vis"
      · simp only [hv, except_bind_ok, if_true]
        cases hsub1 : dt_item.sub 1 with
        | error e => simp [hsub1, except_bind_error, except_map_error]
        | ok exList =>
          cases hiter : exList.iter with
          | error e => simp [hsub1, hiter, except_bind_ok, except_bind_error,
              except_map_error]
          | ok exItems =>
            simp only [hsub1, hiter, except_bind_ok]
            exact exLoop_sim exItems b'
      · simp [hv, except_bind_ok, pure, Except.pure, except_map_ok]
  · simp only [ht, if_false, Bool.false_eq_true, except_bind_ok, pure,
      Except.pure, except_map_ok]

theorem senseLoop_sim (sense_group_items : List Json) (b : List String) :
    senseLoop insertExample (dedupFirst b) sense_group_items =
      (senseLoop (fun exs t => exs ++ [t]) b sense_group_items).map
        dedupFirst := by
  unfold senseLoop
  refine foldlM_sim _ _ dedupFirst ?_ sense_group_items b
  intro b' sense_entry
  cases hlen : sense_entry.len with
  | error e => simp [hlen, except_bind_error, except_map_error]
  | ok n =>
    simp only [hlen, except_bind_ok]
    by_cases hn : n < 2
    · simp [hn, pure, Except.pure, except_map_ok]
    · simp only [hn, if_false]
      cases hsub : sense_entry.sub 1 with
      | error e => simp [hsub, except_bind_error, except_map_error]
      | ok sense_info =>
        simp only [hsub, except_bind_ok]
        cases sense_info with
        | obj sfs =>
          cases hiter : ((sfs.lookup "dt").getD (Json.arr [])).iter with
          | error e => simp [hiter, except_bind_error, except_map_error]
          | ok dt_items =>
            simp only [hiter, except_bind_ok]
            exact dtLoop_sim dt_items b'
        | null => simp [pure, Except.pure, except_map_ok]
        | bool x => simp [pure, Except.pure, except_map_ok]
        | num x => simp [pure, Except.pure, except_map_ok]
        | str x => simp [pure, Except.pure, except_map_ok]
        | arr x => simp [pure, Except.pure, except_map_ok]

theorem sseqLoop_sim (sseq_items : List Json) (b : List String) :
    sseqLoop insertExample (dedupFirst b) sseq_items =
      (sseqLoop (fun exs t => exs ++ [t]) b sseq_items).map dedupFirst := by
  unfold sseqLoop
  refine foldlM_sim _ _ dedupFirst ?_ sseq_items b
  intro b' sense_group
  cases hiter : sense_group.iter with
  | error e => simp [hiter, except_bind_error, except_map_error]
  | ok sgItems =>
    simp only [hiter, except_bind_ok]
    exact senseLoop_sim sgItems b'

theorem defLoop_sim (def_items : List Json) (b : List String) :
    defLoop insertExample (dedupFirst b) def_items =
      (defLoop (fun exs t => exs ++ [t]) b def_items).map dedupFirst := by
  unfold defLoop
  refine foldlM_sim _ _ dedupFirst ?_ def_items b
  intro b' d
  cases hget : d.getD "sseq" (Json.arr []) with
  | error e => simp [hget, except_bind_error, except_map_error]
  | ok sseqJ =>
    simp only [hget, except_bind_ok]
    cases hiter : sseqJ.iter with
    | error e => simp [hiter, except_bind_error, except_map_error]
    | ok sseq_items =>
      simp only [hiter, except_bind_ok]
      exact sseqLoop_sim sseq_items b'

theorem exampleWalk_sim (fs : List (String × Json)) :
    exampleWalk insertExample fs = (harvestTexts fs).map dedupFirst := by
  unfold harvestTexts exampleWalk
  cases hiter : ((fs.lookup "def").getD (Json.arr [])).iter with
  | error e => simp [hiter, except_bind_error, except_map_error]
  | ok def_items =>
    simp only [hiter, except_bind_ok]
    exact defLoop_sim def_items []

theorem insertExample_nodup {l : List String} (h : l.Nodup) (t : String) :
    (insertExample l t).Nodup := by
  unfold insertExample
  split
  · next hc => simp [List.nodup_append, h, hc.2]
  · exact h

theorem dedupFirst_nodup (ts : List String) : (dedupFirst ts).Nodup := by
  unfold dedupFirst
  suffices h : ∀ l : List String, l.Nodup → (ts.foldl insertExample l).Nodup from
    h [] List.nodup_nil
  induction ts with
  | nil => intro l hl; exact hl
  | cons t ts ih => intro l hl; exact ih _ (insertExample_nodup hl t)

/-- Claim C5: Whenever `fetch_dictionary_data` returns an entry (which can only
happen on a response of the shape `[{...with "meta"...}, ...]`), its
`examples` list has no duplicates, and it is exactly the first-occurrence
deduplication (empty texts dropped) of the full traversal-order sequence of
stripped example texts harvested by the walk of lines 191-211. -/
theorem fetch_examples_dedup (word : Json) (fs : List (String × Json))
    (rest : List Json) (e : DictEntry)
    (hf : fetch_dictionary_data word (Json.arr (Json.obj fs :: rest)) =
      .ok (some e)) :
    e.examples.Nodup ∧
    ∃ ts, harvestTexts fs = .ok ts ∧ e.examples = dedupFirst ts := by
  simp only [fetch_dictionary_data] at hf
  by_cases hm : (fs.lookup "meta").isSome
  · rw [if_pos hm] at hf
    have hex : ∃ exs, exampleWalk insertExample fs = .ok exs ∧
        e.examples = exs := by
      by_cases hsd : ((fs.lookup "shortdef").getD (Json.arr [])).truthy
      · rw [if_pos hsd] at hf
        cases hsub : ((fs.lookup "shortdef").getD (Json.arr [])).sub 0 with
        | error er => rw [hsub, except_bind_error] at hf; cases hf
        | ok desc =>
          rw [hsub, except_bind_ok] at hf
          cases hwalk : exampleWalk insertExample fs with
          | error er => rw [hwalk, except_bind_error] at hf; cases hf
          | ok exs =>
            rw [hwalk, except_bind_ok] at hf
            cases hf
            exact ⟨exs, rfl, rfl⟩
      · rw [if_neg hsd, except_pure_bind] at hf
        cases hwalk : exampleWalk insertExample fs with
        | error er => rw [hwalk, except_bind_error] at hf; cases hf
        | ok exs =>
          rw [hwalk, except_bind_ok] at hf
          cases hf
          exact ⟨exs, rfl, rfl⟩
    obtain ⟨exs, hwalk, hexs⟩ := hex
    have hsim := exampleWalk_sim fs
    rw [hwalk] at hsim
    cases hharv : harvestTexts fs with
    | error er => rw [hharv, except_map_error] at hsim; cases hsim
    | ok ts =>
      rw [hharv, except_map_ok] at hsim
      injection hsim with hts
      refine ⟨?_, ts, rfl, ?_⟩
      · rw [hexs, hts]; exact dedupFirst_nodup ts
      · rw [hexs, hts]
  · rw [if_neg hm] at hf
    cases hf

/-- The `"def"` field for the dedup witness: one sense whose `vis` list
carries two examples that strip to the same text. -/
def witDefField : Json :=
  Json.arr [Json.obj [("sseq",
    Json.arr [Json.arr [Json.arr [Json.str "sense",
      Json.obj [("dt",
        Json.arr [Json.arr [Json.str "vis",
          Json.arr [Json.obj [("t", Json.str "a {it}big{/it} dog")],
                    Json.obj [("t", Json.str "a big dog")]]]])]]]])]]

def witFs5 : List (String × Json) :=
  [("meta", Json.null), ("def", witDefField)]

theorem fetch_examples_dedup_witness :
    (DictEntry.mk (Json.str "w") (Json.str "") ["a big dog"]).examples.Nodup :=
  (fetch_examples_dedup (Json.str "w") witFs5 []
    ⟨Json.str "w", Json.str "", ["a big dog"]⟩ rfl).1

/-! ## The tag-stripping claim -/

theorem stripIt_it (s : List Char) :
    stripIt ('{' :: 'i' :: 't' :: '}' :: s) = stripIt s := rfl

theorem stripIt_endtag (s : List Char) :
    stripIt ('{' :: '/' :: 'i' :: 't' :: '}' :: s) =
      '{' :: '/' :: 'i' :: 't' :: '}' :: stripIt s := rfl

theorem stripIt_cons_ne {c : Char} (h : c ≠ '{') (cs : List Char) :
    stripIt (c :: cs) = c :: stripIt cs := by
  conv_lhs => unfold stripIt
  split
  · next heq => injection heq with h1 h2; exact absurd h1 h
  · next heq => injection heq with h1 h2; rw [h1, h2]
  · next heq => cases heq

theorem stripEndIt_endtag (s : List Char) :
    stripEndIt ('{' :: '/' :: 'i' :: 't' :: '}' :: s) = stripEndIt s := rfl

theorem stripEndIt_cons_ne {c : Char} (h : c ≠ '{') (cs : List Char) :
    stripEndIt (c :: cs) = c :: stripEndIt cs := by
  conv_lhs => unfold stripEndIt
  split
  · next heq => injection heq with h1 h2; exact absurd h1 h
  · next heq => injection heq with h1 h2; rw [h1, h2]
  · next heq => cases heq

theorem hasIt_cons_ne {c : Char} (h : c ≠ '{') (cs : List Char) :
    hasIt (c :: cs) = hasIt cs := by
  conv_lhs => unfold hasIt
  split
  · next heq => injection heq with h1 h2; exact absurd h1 h
  · next heq => injection heq with h1 h2; rw [h2]
  · next heq => cases heq

theorem hasEndIt_cons_ne {c : Char} (h : c ≠ '{') (cs : List Char) :
    hasEndIt (c :: cs) = hasEndIt cs := by
  conv_lhs => unfold hasEndIt
  split
  · next heq => injection heq with h1 h2; exact absurd h1 h
  · next heq => injection heq with h1 h2; rw [h2]
  · next heq => cases heq

/-- Example strings in which every `{` opens one complete tag, `{it}` or
`{/it}` — the shape the dictionary API uses the two markers in. -/
inductive WellTagged : List Char → Prop
  | nil : WellTagged []
  | chr {c : Char} {s : List Char} : c ≠ '{' → WellTagged s →
      WellTagged (c :: s)
  | itTag {s : List Char} : WellTagged s →
      WellTagged ('{' :: 'i' :: 't' :: '}' :: s)
  | endTag {s : List Char} : WellTagged s →
      WellTagged ('{' :: '/' :: 'i' :: 't' :: '}' :: s)

/-- After the first replace: every `{` opens a complete `{/it}`. -/
inductive OnlyEndTags : List Char → Prop
  | nil : OnlyEndTags []
  | chr {c : Char} {s : List Char} : c ≠ '{' → OnlyEndTags s →
      OnlyEndTags (c :: s)
  | endTag {s : List Char} : OnlyEndTags s →
      OnlyEndTags ('{' :: '/' :: 'i' :: 't' :: '}' :: s)

theorem stripIt_wellTagged {s : List Char} (h : WellTagged s) :
    OnlyEndTags (stripIt s) := by
  induction h with
  | nil => exact .nil
  | chr hne _ ih => rw [stripIt_cons_ne hne]; exact .chr hne ih
  | itTag _ ih => rw [stripIt_it]; exact ih
  | endTag _ ih => rw [stripIt_endtag]; exact .endTag ih

theorem stripEndIt_onlyEnd {s : List Char} (h : OnlyEndTags s) :
    '{' ∉ stripEndIt s := by
  induction h with
  | nil => simp [stripEndIt]
  | chr hne _ ih =>
    next c _ =>
      rw [stripEndIt_cons_ne hne]
      intro hmem
      rcases List.mem_cons.mp hmem with h1 | h1
      · exact hne h1.symm
      · exact ih h1
  | endTag _ ih => rw [stripEndIt_endtag]; exact ih

theorem hasIt_false {l : List Char} (h : '{' ∉ l) : hasIt l = false := by
  induction l with
  | nil => rfl
  | cons c cs ih =>
    have hc : c ≠ '{' := by
      intro he
      exact h (by rw [he]; exact List.mem_cons_self _ _)
    rw [hasIt_cons_ne hc]
    exact ih fun hm => h (List.mem_cons_of_mem c hm)

theorem hasEndIt_false {l : List Char} (h : '{' ∉ l) : hasEndIt l = false := by
  induction l with
  | nil => rfl
  | cons c cs ih =>
    have hc : c ≠ '{' := by
      intro he
      exact h (by rw [he]; exact List.mem_cons_self _ _)
    rw [hasEndIt_cons_ne hc]
    exact ih fun hm => h (List.mem_cons_of_mem c hm)

/-- Claim C3, counterexample: `str.replace` deletes each occurrence it finds,
but a deletion can splice the surrounding text into a new tag: stripping
`"{i{it}t}"` yields exactly `"{it}"`, so the output of the tag-stripping step
can still contain a tag marker — the claim fails for this input string. -/
theorem strip_tags_splice_cex :
    strip_tags "{i{it}t}" = "{it}" ∧
    hasIt (strip_tags "{i{it}t}").data = true := by
  constructor <;> decide

/-- Claim C3, amended: For every input string in which each `{` opens one
complete `{it}` or `{/it}` tag (no spliced or overlapping brace fragments),
the tag-stripping step of line 209 produces a string containing no occurrence
of `{it}` and none of `{/it}`. -/
theorem strip_tags_removes_all_tags (s : String) (h : WellTagged s.data) :
    hasIt (strip_tags s).data = false ∧
    hasEndIt (strip_tags s).data = false := by
  have hbrace : '{' ∉ stripEndIt (stripIt s.data) :=
    stripEndIt_onlyEnd (stripIt_wellTagged h)
  exact ⟨hasIt_false hbrace, hasEndIt_false hbrace⟩

theorem strip_tags_removes_all_tags_witness :
    hasIt (strip_tags "x{it}y{/it}").data = false ∧
    hasEndIt (strip_tags "x{it}y{/it}").data = false :=
  strip_tags_removes_all_tags "x{it}y{/it}"
    (WellTagged.chr (by decide)
      (WellTagged.itTag (WellTagged.chr (by decide)
        (WellTagged.endTag WellTagged.nil))))
